import Mathlib

/-!
Verification of the bioproxy coordination core against its specification.

The Go sources are shallowly embedded here:
* the admission controller (`src/internal/admission/admission.go`),
* the backend-state tracker (`src/internal/state/state.go`),
* the template watcher and single-pass expansion
  (`src/internal/template/watcher.go`),
* the warmup manager attempt sequence (the admission-aware `warmupTemplate`
  and `checkAndWarmup`, as found after `CheckForChanges` in the template
  watcher source),
* the chat-completion interception path
  (`src/internal/proxy/proxy.go`, `handleChatCompletion`).

Machine integers are modelled as `Int` (Go `int`), Go maps as association
lists in traversal order, the filesystem and backend I/O as explicit
oracles passed in as function arguments.
-/

namespace Bioproxy

/-! ## Admission controller — from src/internal/admission/admission.go -/

inductive RequestType where
  | IDLE
  | USER_QUERY
  | WARMUP_QUERY
deriving DecidableEq, Repr

/-- The `Controller` struct.  `H` is the type of cancellation handles
(Go `context.CancelFunc`); `warmupCancelFunc == nil` is `none`. -/
structure Controller (H : Type) where
  currentState : RequestType
  warmupCancelFunc : Option H
  warmupPfx : String
  userQueryCount : Int

def Controller.new (H : Type) : Controller H :=
  { currentState := .IDLE, warmupCancelFunc := none, warmupPfx := "",
    userQueryCount := 0 }

/-- `AcquireUserQuery`.  Besides the grant flag and the new state it returns
the cancellation handle that the call invoked, if any (the Go code calls
`warmupCancelFunc()` in the `WARMUP_QUERY` branch when it is non-nil). -/
def acquireUserQuery {H : Type} (c : Controller H) :
    Bool × Option H × Controller H :=
  match c.currentState with
  | .IDLE =>
      (true, none, { c with currentState := .USER_QUERY, userQueryCount := 1 })
  | .USER_QUERY =>
      (true, none, { c with userQueryCount := c.userQueryCount + 1 })
  | .WARMUP_QUERY =>
      (true, c.warmupCancelFunc,
        { c with currentState := .USER_QUERY, userQueryCount := 1,
                 warmupCancelFunc := none, warmupPfx := "" })

/-- `ReleaseUserQuery`. -/
def releaseUserQuery {H : Type} (c : Controller H) : Controller H :=
  if c.currentState ≠ RequestType.USER_QUERY then c
  else if c.userQueryCount - 1 ≤ 0 then
    { c with currentState := .IDLE, userQueryCount := 0 }
  else
    { c with userQueryCount := c.userQueryCount - 1 }

/-- `AcquireWarmup`.  The caller always supplies a live cancellation
handle, so `cancel : H` (not an option). -/
def acquireWarmup {H : Type} (p : String) (cancel : H) (c : Controller H) :
    Bool × Controller H :=
  match c.currentState with
  | .IDLE =>
      (true, { c with currentState := .WARMUP_QUERY, warmupPfx := p,
                      warmupCancelFunc := some cancel })
  | .USER_QUERY => (false, c)
  | .WARMUP_QUERY => (false, c)

/-- `ReleaseWarmup`. -/
def releaseWarmup {H : Type} (c : Controller H) : Controller H :=
  if c.currentState ≠ RequestType.WARMUP_QUERY then c
  else { c with currentState := .IDLE, warmupCancelFunc := none,
                warmupPfx := "" }

/-- One call to the controller, as seen at a quiescent point. -/
inductive AdmEvent (H : Type) where
  | acquireUser
  | releaseUser
  | acquireWarm (p : String) (cancel : H)
  | releaseWarm

def admStep {H : Type} (c : Controller H) : AdmEvent H → Controller H
  | .acquireUser => (acquireUserQuery c).2.2
  | .releaseUser => releaseUserQuery c
  | .acquireWarm p cancel => (acquireWarmup p cancel c).2
  | .releaseWarm => releaseWarmup c

def admRun {H : Type} (es : List (AdmEvent H)) : Controller H :=
  es.foldl admStep (Controller.new H)

/-- The §3 admission-record invariants. -/
def AdmInv {H : Type} (c : Controller H) : Prop :=
  (c.currentState = RequestType.IDLE ↔
    c.userQueryCount = 0 ∧ c.warmupCancelFunc = none) ∧
  (c.currentState = RequestType.USER_QUERY →
    1 ≤ c.userQueryCount ∧ c.warmupCancelFunc = none) ∧
  (c.currentState = RequestType.WARMUP_QUERY →
    c.userQueryCount = 0 ∧ c.warmupCancelFunc ≠ none)

/-- Concrete controller in the `WARMUP_QUERY` state (for witnesses). -/
def cWarmW : Controller Unit :=
  { currentState := .WARMUP_QUERY, warmupCancelFunc := some (),
    warmupPfx := "@a", userQueryCount := 0 }

/-- Concrete controller in the `USER_QUERY` state (for witnesses). -/
def cUserW : Controller Unit :=
  { currentState := .USER_QUERY, warmupCancelFunc := none, warmupPfx := "",
    userQueryCount := 1 }

/-! ## Backend-state tracker — from src/internal/state/state.go -/

structure BackendState where
  lastPfx : String

def shouldSave (s : BackendState) (newPfx : String) : Bool :=
  (s.lastPfx != "") && (s.lastPfx != newPfx)

def shouldRestore (s : BackendState) (newPfx : String) : Bool :=
  (newPfx != "") && (s.lastPfx != newPfx)

/-! ## Template expansion — from src/internal/template/watcher.go

`ProcessTemplateString` replaces every match of the regexp
`<\{([^}]+)\}>` in the original template string, in one left-to-right
pass; the replacement for interior `message` (after `strings.TrimSpace`)
is the user message, anything else is treated as a file path, with a
literal error marker on read failure.  Substituted content is never
rescanned.  The filesystem is the oracle `fs` (`none` = read error) and
`reason` gives the OS error text used in the marker. -/

def lbrace : Char := Char.ofNat 123

def rbrace : Char := Char.ofNat 125

/-- One token of the single-pass scan: a literal character of the
template, or the interior of one `<\{...\}>` directive. -/
inductive Tok where
  | lit (c : Char)
  | dir (inner : List Char)
deriving DecidableEq, Repr

/-- The scan itself.  At each position a match requires `<`, `\{`, one or
more non-`\}` characters, then `\}` and `>`; on success the scan resumes
after the match, otherwise one literal character is emitted (Go regexp
leftmost matching; `[^}]+` is a maximal brace-free run, so no backtracking
can produce another match at the same position).  `fuel` bounds the
recursion; every call consumes at least one character, so `fuel = length`
is always enough. -/
def scanAux : Nat → List Char → List Tok
  | 0, _ => []
  | _ + 1, [] => []
  | fuel + 1, c :: rest =>
    if c = '<' then
      match rest with
      | [] => Tok.lit c :: scanAux fuel rest
      | c2 :: rest2 =>
        if c2 = lbrace then
          match rest2.takeWhile (· != rbrace),
                rest2.dropWhile (· != rbrace) with
          | _ :: _, _ :: r2 :: rest3 =>
            if r2 = '>' then
              Tok.dir (rest2.takeWhile (· != rbrace)) :: scanAux fuel rest3
            else Tok.lit c :: scanAux fuel rest
          | _, _ => Tok.lit c :: scanAux fuel rest
        else Tok.lit c :: scanAux fuel rest
    else Tok.lit c :: scanAux fuel rest

def scanTemplate (tmpl : List Char) : List Tok :=
  scanAux tmpl.length tmpl

/-- Go `unicode.IsSpace` on the Latin-1 range (the code points
`strings.TrimSpace` strips from template directives in practice). -/
def goIsSpace (c : Char) : Bool :=
  c = ' ' || c = '\t' || c = '\n' || c = Char.ofNat 11 ||
  c = Char.ofNat 12 || c = '\r' || c = Char.ofNat 0x85 || c = Char.ofNat 0xA0

/-- `strings.TrimSpace`. -/
def trimSpace (l : List Char) : List Char :=
  ((l.dropWhile goIsSpace).reverse.dropWhile goIsSpace).reverse

def messagePlaceholder : List Char := "message".toList

/-- The error marker `[Error reading <path>: <reason>]`. -/
def errMarker (ph reason : List Char) : List Char :=
  "[Error reading ".toList ++ ph ++ ": ".toList ++ reason ++ "]".toList

/-- The replacement callback of `ReplaceAllStringFunc`. -/
def renderTok (fs : List Char → Option (List Char))
    (reason : List Char → List Char) (userMessage : List Char) :
    Tok → List Char
  | .lit c => [c]
  | .dir inner =>
    let ph := trimSpace inner
    if ph = messagePlaceholder then userMessage
    else
      match fs ph with
      | some content => content
      | none => errMarker ph (reason ph)

/-- `ProcessTemplateString` (it never returns an error in the Go code). -/
def processTemplateString (fs : List Char → Option (List Char))
    (reason : List Char → List Char) (tmpl userMessage : List Char) :
    List Char :=
  ((scanTemplate tmpl).map (renderTok fs reason userMessage)).flatten

/-- Is this scanned token a `message` directive? -/
def isMsgDir : Tok → Bool
  | .lit _ => false
  | .dir inner => trimSpace inner == messagePlaceholder

/-- Number of `message` directives the single-pass scan finds in the
template. -/
def msgDirCount (tmpl : List Char) : Nat :=
  ((scanTemplate tmpl).filter isMsgDir).length

/-- The fixed segments of an expansion: the rendered text between the
`message` directives, which depends only on the template (and the
filesystem), never on the user message. -/
def piecesAux (fs : List Char → Option (List Char))
    (reason : List Char → List Char) : List Tok → List (List Char)
  | [] => [[]]
  | t :: ts =>
    let ps := piecesAux fs reason ts
    if isMsgDir t then [] :: ps
    else
      match ps with
      | [] => [renderTok fs reason [] t]
      | p :: rest => (renderTok fs reason [] t ++ p) :: rest

def pieces (fs : List Char → Option (List Char))
    (reason : List Char → List Char) (tmpl : List Char) :
    List (List Char) :=
  piecesAux fs reason (scanTemplate tmpl)

/-- `interleave sep [s0, s1, ..., sn] = s0 ++ sep ++ s1 ++ ... ++ sep ++ sn`. -/
def interleave (sep : List Char) : List (List Char) → List Char
  | [] => []
  | [p] => p
  | p :: q :: rest => p ++ sep ++ interleave sep (q :: rest)

/-- Number of positions of `l` at which `pat` occurs as a substring. -/
def countOcc (pat : List Char) : List Char → Nat
  | [] => if pat.isPrefixOf ([] : List Char) then 1 else 0
  | c :: rest =>
    (if pat.isPrefixOf (c :: rest) then 1 else 0) + countOcc pat rest

/-- Filesystem oracle for the C5 counterexample: no file is readable. -/
def c5fs : List Char → Option (List Char) := fun _ => none

def c5reason : List Char → List Char := fun _ => "err".toList

/-- Counterexample template: a directive with interior ` message `
(spaces around the keyword). -/
def c5T : List Char := "<\x7b message \x7d>".toList

/-- The literal directive text `<\{message\}>`. -/
def c5lit : List Char := "<\x7bmessage\x7d>".toList

/-! ## Chat-completion interception — from src/internal/proxy/proxy.go

`handleChatCompletion` parses the body into `map[string]interface{}`,
finds the last user message, optionally rewrites its `content` through the
template watcher, decides the KV-cache save/restore from the backend
state, and re-serialises the whole map.  JSON values are modelled by
`JVal`; Go maps by association lists in traversal order. -/

inductive JVal where
  | null
  | jbool (b : Bool)
  | jnum (n : Int)
  | jstr (s : String)
  | jarr (xs : List JVal)
  | jobj (fields : List (String × JVal))

/-- Go map lookup on an association list with unique keys. -/
def alookup {α : Type} (xs : List (String × α)) (k : String) : Option α :=
  match xs with
  | [] => none
  | (k', v) :: rest => if k' = k then some v else alookup rest k

/-- Go map update of an existing key. -/
def aset {α : Type} (xs : List (String × α)) (k : String) (v : α) :
    List (String × α) :=
  match xs with
  | [] => []
  | (k', v') :: rest =>
    if k' = k then (k', v) :: rest else (k', v') :: aset rest k v

/-- The backwards scan of `messages`: the last entry that is a JSON object
whose `role` field is the string `user` (non-object entries and entries
with a non-string or non-`user` role are skipped).  Returns its index and
its fields. -/
def lastUserMsg : List JVal → Option (Nat × List (String × JVal))
  | [] => none
  | m :: rest =>
    match lastUserMsg rest with
    | some (i, mm) => some (i + 1, mm)
    | none =>
      match m with
      | .jobj mm =>
        match alookup mm "role" with
        | some (.jstr r) => if r = "user" then some (0, mm) else none
        | _ => none
      | _ => none

/-- Go `strings.HasPrefix`, on characters. -/
def strHasPfx (p s : String) : Bool := p.toList.isPrefixOf s.toList

/-- First configured prefix `p` (in map-traversal order `cfg`) such that
the content starts with `p` followed by exactly one space. -/
def findPfx (cfg : List String) (content : String) : Option String :=
  match cfg with
  | [] => none
  | p :: rest =>
    if strHasPfx (p ++ " ") content then some p else findPfx rest content

/-- `strings.TrimPrefix(content, p ++ " ")` when the prefix is present. -/
def dropPfxSpace (p content : String) : String :=
  String.mk (content.toList.drop (p.toList.length + 1))

/-- Outcome of the body-handling part of `handleChatCompletion`:
an early rejection with an HTTP status, or the forwarded body together
with the detected prefix and the two cache-reconciliation decisions. -/
inductive ChatResult where
  | reject (status : Nat)
  | ok (body : JVal) (pfxUsed : String) (doSave : Bool) (doRestore : Bool)

/-- The body-handling path of `handleChatCompletion` once the body has
parsed as a JSON object (Go `json.Unmarshal` into
`map[string]interface{}`).  `cfg` is the configured prefix list in
map-traversal order, `proc` is `watcher.ProcessTemplate` (`none` =
error), `lastPfx` the backend-state tracker's current value. -/
def handleChatObj (cfg : List String)
    (proc : String → String → Option String) (lastPfx : String)
    (fields : List (String × JVal)) : ChatResult :=
  match alookup fields "messages" with
    | some (.jarr msgs) =>
      match lastUserMsg msgs with
      | none =>
        .ok (.jobj fields) ""
          (shouldSave ⟨lastPfx⟩ "") (shouldRestore ⟨lastPfx⟩ "")
      | some (i, m) =>
        match alookup m "content" with
        | some (.jstr content) =>
          match findPfx cfg content with
          | none =>
            .ok (.jobj fields) ""
              (shouldSave ⟨lastPfx⟩ "") (shouldRestore ⟨lastPfx⟩ "")
          | some p =>
            match proc p (dropPfxSpace p content) with
            | none => .reject 500
            | some expanded =>
              let newMsgs :=
                msgs.set i (.jobj (aset m "content" (.jstr expanded)))
              .ok (.jobj (aset fields "messages" (.jarr newMsgs))) p
                (shouldSave ⟨lastPfx⟩ p) (shouldRestore ⟨lastPfx⟩ p)
        | _ => .reject 400
    | some _ => .reject 400
    | none => .reject 400

/-- `handleChatCompletion`: a body that does not parse as a JSON object is
rejected with 400, otherwise the object is handled by `handleChatObj`. -/
def handleChat (cfg : List String)
    (proc : String → String → Option String) (lastPfx : String) :
    JVal → ChatResult
  | .jobj fields => handleChatObj cfg proc lastPfx fields
  | _ => .reject 400

/-- Concrete request for the C6 witness. -/
def c6fields : List (String × JVal) :=
  [("messages", .jarr [.jobj
      [("role", .jstr "user"), ("content", .jstr "@code hi")]]),
   ("stream", .jbool true)]

def c6proc : String → String → Option String :=
  fun p m => some (p ++ ":" ++ m)

/-- Concrete request with no user-role message, for the C10 witness. -/
def c10fields : List (String × JVal) :=
  [("messages", .jarr [.jobj
      [("role", .jstr "assistant"), ("content", .jstr "x")]]),
   ("temperature", .jnum 1)]

/-- The body the C6 witness request is forwarded as. -/
def c6out : JVal :=
  .jobj [("messages", .jarr [.jobj
      [("role", .jstr "user"), ("content", .jstr "@code:hi")]]),
   ("stream", .jbool true)]

/-! ## Template watcher state — from src/internal/template/watcher.go -/

structure TemplateState where
  templatePath : String
  processedHash : List Char
  needsWarmup : Bool
deriving DecidableEq, Repr

/-- `processTemplateFile`: read the template file through the filesystem
oracle, then process it (a read failure is the only error). -/
def processTemplateFile (fs : List Char → Option (List Char))
    (reason : List Char → List Char) (path : String)
    (userMessage : String) : Option (List Char) :=
  match fs path.toList with
  | none => none
  | some content =>
      some (processTemplateString fs reason content userMessage.toList)

/-- `watcher.ProcessTemplate`: look the prefix up, then process its file. -/
def processTemplateW (templates : List (String × TemplateState))
    (fs : List Char → Option (List Char))
    (reason : List Char → List Char) (pfx : String)
    (userMessage : String) : Option (List Char) :=
  match alookup templates pfx with
  | none => none
  | some ts => processTemplateFile fs reason ts.templatePath userMessage

/-- `CheckForChanges`, over the entries in map-traversal order: an entry
already flagged is reported immediately (`continue`), otherwise the
template is re-expanded with the empty message — on a read error the
entry is skipped unchanged — and on a hash difference it is flagged,
re-hashed and reported.  Returns the reported prefixes in traversal order
together with the updated entries. -/
def checkForChanges (fs : List Char → Option (List Char))
    (reason : List Char → List Char) (hash : List Char → List Char) :
    List (String × TemplateState) →
      List String × List (String × TemplateState)
  | [] => ([], [])
  | (p, ts) :: rest =>
    let r := checkForChanges fs reason hash rest
    if ts.needsWarmup then (p :: r.1, (p, ts) :: r.2)
    else
      match processTemplateFile fs reason ts.templatePath "" with
      | none => (r.1, (p, ts) :: r.2)
      | some processed =>
        if hash processed ≠ ts.processedHash then
          (p :: r.1,
           (p, { ts with needsWarmup := true,
                         processedHash := hash processed }) :: r.2)
        else (r.1, (p, ts) :: r.2)

/-- Per-entry report condition, in the words of the amended claim. -/
def entryChanged (fs : List Char → Option (List Char))
    (reason : List Char → List Char) (hash : List Char → List Char)
    (e : String × TemplateState) : Bool :=
  e.2.needsWarmup ||
    (match processTemplateFile fs reason e.2.templatePath "" with
     | none => false
     | some processed => hash processed != e.2.processedHash)

/-- Per-entry update, in the words of the amended claim: only a detected
hash change flags the entry and stores the new hash. -/
def entryAfterCheck (fs : List Char → Option (List Char))
    (reason : List Char → List Char) (hash : List Char → List Char)
    (e : String × TemplateState) : String × TemplateState :=
  if e.2.needsWarmup then e
  else
    match processTemplateFile fs reason e.2.templatePath "" with
    | none => e
    | some processed =>
      if hash processed ≠ e.2.processedHash then
        (e.1, { e.2 with needsWarmup := true,
                         processedHash := hash processed })
      else e

/-- `MarkWarmedUp`. -/
def markWarmedUp (pfx : String) :
    List (String × TemplateState) → List (String × TemplateState)
  | [] => []
  | (p, ts) :: rest =>
    if p = pfx then (p, { ts with needsWarmup := false }) :: rest
    else (p, ts) :: markWarmedUp pfx rest

/-! ## Warmup manager — the admission-aware `warmupTemplate` /
`checkAndWarmup` (the manager version that takes an
`admission.Controller`). -/

/-- Outcome of the warmup completion request (step 4): `cancelled` means
the HTTP request aborted because the admission controller invoked this
attempt's cancellation handle. -/
inductive CompletionOutcome where
  | ok
  | cancelled
  | httpError
deriving DecidableEq, Repr

inductive WarmupResult where
  | skipped
  | cancelled
  | failed
  | success
deriving DecidableEq, Repr

/-- The state a warmup attempt can read or write: the admission
controller, the backend-state tracker, the watcher entries, and the
warmup metrics that the manager records (error and execution counters,
as label lists in record order). -/
structure WarmupState (H : Type) where
  adm : Controller H
  backend : BackendState
  templates : List (String × TemplateState)
  warmupErrors : List (String × String)
  warmupExecs : List String

/-- `warmupTemplate`: acquire (or skip), save/restore the KV cache as
decided by the backend state (steps 1-2 are backend I/O whose failures
are logged and ignored, so they do not touch the tracked state), process
the template (recording `template_error` on failure), send the completion
request — on cancellation return without recording anything or updating
state — record `completion_failed` on other failures, and on success
update the backend state and record the execution; release in all paths
(the Go `defer`).  Concurrent admission interleaving during the HTTP
request is abstracted: `outcome` is the oracle for step 4. -/
def warmupTemplate {H : Type} (fs : List Char → Option (List Char))
    (reason : List Char → List Char) (outcome : CompletionOutcome)
    (cancel : H) (pfx : String) (st : WarmupState H) :
    WarmupResult × WarmupState H :=
  let a := acquireWarmup pfx cancel st.adm
  if !a.1 then (.skipped, { st with adm := a.2 })
  else
    match processTemplateW st.templates fs reason pfx "" with
    | none =>
      (.failed,
       { st with adm := releaseWarmup a.2,
                 warmupErrors := st.warmupErrors ++ [(pfx, "template_error")] })
    | some _ =>
      match outcome with
      | .cancelled => (.cancelled, { st with adm := releaseWarmup a.2 })
      | .httpError =>
        (.failed,
         { st with adm := releaseWarmup a.2,
                   warmupErrors :=
                     st.warmupErrors ++ [(pfx, "completion_failed")] })
      | .ok =>
        (.success,
         { st with adm := releaseWarmup a.2,
                   backend := ⟨pfx⟩,
                   warmupExecs := st.warmupExecs ++ [pfx] })

/-- One iteration of the `checkAndWarmup` loop body: run the attempt and
`MarkWarmedUp` only when it completed successfully. -/
def warmupOne {H : Type} (fs : List Char → Option (List Char))
    (reason : List Char → List Char) (outcome : CompletionOutcome)
    (cancel : H) (pfx : String) (st : WarmupState H) : WarmupState H :=
  let r := warmupTemplate fs reason outcome cancel pfx st
  if r.1 = WarmupResult.success then
    { r.2 with templates := markWarmedUp pfx r.2.templates }
  else r.2

/-- `checkAndWarmup`: ask the watcher for changed prefixes, then attempt
each of them in the order returned.  The attempted prefixes are returned
alongside the final state; `outcomes` is the per-prefix completion
oracle. -/
def checkAndWarmup {H : Type} (fs : List Char → Option (List Char))
    (reason : List Char → List Char) (hash : List Char → List Char)
    (outcomes : String → CompletionOutcome) (cancel : H)
    (st : WarmupState H) : List String × WarmupState H :=
  let r := checkForChanges fs reason hash st.templates
  let st1 := { st with templates := r.2 }
  (r.1, r.1.foldl (fun s p => warmupOne fs reason (outcomes p) cancel p s) st1)

/-- Concrete warmup state for witnesses. -/
def c7st : WarmupState Unit :=
  { adm := Controller.new Unit, backend := ⟨""⟩,
    templates := [("@a", ⟨"t.txt", [], true⟩)],
    warmupErrors := [], warmupExecs := [] }

def c7fs : List Char → Option (List Char) :=
  fun p => if p = "t.txt".toList then some "Hi".toList else none

def c7reason : List Char → List Char := fun _ => []

/-- Concrete watcher entry set for the C8 counterexample: one entry that
is already flagged, whose file now hashes differently from the stored
hash. -/
def c8ts : List (String × TemplateState) :=
  [("@a", ⟨"a.txt", "h1".toList, true⟩)]

def c8fs : List Char → Option (List Char) :=
  fun p => if p = "a.txt".toList then some "X".toList else none

def c8hash : List Char → List Char := fun s => s

def c8reason : List Char → List Char := fun _ => []

/-- Concrete watcher entry set for the C9 counterexample, in a traversal
order that is not ascending. -/
def c9ts : List (String × TemplateState) :=
  [("@b", ⟨"b.txt", [], true⟩), ("@a", ⟨"a.txt", [], true⟩)]

def c9st : WarmupState Unit :=
  { adm := Controller.new Unit, backend := ⟨""⟩, templates := c9ts,
    warmupErrors := [], warmupExecs := [] }

def c9fs : List Char → Option (List Char) := fun _ => none

def c9reason : List Char → List Char := fun _ => []

def c9hash : List Char → List Char := fun s => s

/-- Strict lexicographic order on names, by character code. -/
def lexLt : List Char → List Char → Bool
  | [], [] => false
  | [], _ :: _ => true
  | _ :: _, [] => false
  | a :: as, b :: bs =>
    if a < b then true else if b < a then false else lexLt as bs

/-- Claim C9's ordering property: a list of prefixes in strictly
ascending name order. -/
def AscendingOrder (l : List String) : Prop :=
  List.Pairwise (fun a b => lexLt a.toList b.toList = true) l

/-! ## Interception path events (C3) -/

/-- Observable events of one run of the chat-completion handler. -/
inductive PEvent (H : Type) where
  | acquireUser (invoked : Option H)
  | backendSave
  | backendRestore
  | backendForward
  | respond (status : Nat)
  | releaseUser
deriving DecidableEq, Repr

/-- Modelled from the spec: the final `handleChatCompletion` that wires in
the admission controller is missing from src — admission.go documents
that `AcquireUserQuery` is called at the start of every user request and
`ReleaseUserQuery` when it completes, but no caller of either appears in
the source tree (the proxy.go snapshot predates the integration).
Following §4.6: step 1 calls `acquire_user` before anything else, which
inside the controller invokes the stored warmup cancellation handle if
one is present (that part is the real `acquireUserQuery` embedding);
steps 2-8 are the body handling of `handleChat` followed by the decided
cache operations and the forward; step 10 releases through a scoped
pattern appended on every return path.  `body = none` stands for an
unreadable body (400), `forwardOk` for backend reachability. -/
def interceptorTrace {H : Type} (cfg : List String)
    (proc : String → String → Option String) (lastPfx : String)
    (adm : Controller H) (body : Option JVal) (forwardOk : Bool) :
    List (PEvent H) :=
  let acq := acquireUserQuery adm
  let core : List (PEvent H) :=
    match body with
    | none => [.respond 400]
    | some b =>
      match handleChat cfg proc lastPfx b with
      | .reject s => [.respond s]
      | .ok _ _ doSave doRestore =>
        (if doSave then [.backendSave] else []) ++
        (if doRestore then [.backendRestore] else []) ++
        (if forwardOk then [.backendForward, .respond 200]
         else [.backendForward, .respond 502])
  .acquireUser acq.2.1 :: core ++ [.releaseUser]

/-! ## Theorems -/

theorem admStep_preserves {H : Type} (c : Controller H) (e : AdmEvent H)
    (hInv : AdmInv c) : AdmInv (admStep c e) := by
  obtain ⟨st, wc, wp, n⟩ := c
  obtain ⟨h1, h2, h3⟩ := hInv
  cases e <;> cases st <;>
    simp_all [admStep, acquireUserQuery, releaseUserQuery, acquireWarmup,
      releaseWarmup, AdmInv] <;>
    try omega
  all_goals (split <;> simp_all <;> omega)

/-- Claim C1: after every finite sequence of acquire/release calls from the
initial state, the admission record satisfies the §3 invariants:
Idle iff no user queries and no stored cancellation handle; UserQuery
implies at least one user query and no handle; WarmupQuery implies no
user query and a stored handle. -/
theorem admission_invariants (H : Type) (es : List (AdmEvent H)) :
    AdmInv (admRun es) := by
  have hinit : AdmInv (Controller.new H) := by
    refine ⟨by simp [Controller.new], ?_, ?_⟩ <;> simp [Controller.new]
  have hstep : ∀ (c : Controller H), AdmInv c →
      AdmInv (es.foldl admStep c) := by
    induction es with
    | nil => intro c hc; exact hc
    | cons e es ih => intro c hc; exact ih _ (admStep_preserves c e hc)
  exact hstep _ hinit

theorem admission_invariants_witness :
    AdmInv (admRun [(AdmEvent.acquireUser : AdmEvent Unit),
      .releaseUser, .acquireWarm "@a" (), .releaseWarm]) :=
  admission_invariants Unit _

/-- Claim C2: the transition table of §4.4.  `acquire_user` returns true in every
state: from Idle it moves to UserQuery with count 1; from UserQuery it
increments the count; from WarmupQuery it invokes the stored cancellation
handle and moves to UserQuery with count 1, clearing the handle.
`acquire_warmup(p, cancel)` returns true iff the state is strictly Idle, in
which case it records `cancel` and `p` and moves to WarmupQuery; otherwise
it returns false and leaves the state unchanged. -/
theorem admission_transition_table (H : Type) (c : Controller H)
    (p : String) (cancel : H) :
    (acquireUserQuery c).1 = true ∧
    (c.currentState = RequestType.IDLE →
      acquireUserQuery c = (true, none,
        { c with currentState := .USER_QUERY, userQueryCount := 1 })) ∧
    (c.currentState = RequestType.USER_QUERY →
      acquireUserQuery c = (true, none,
        { c with userQueryCount := c.userQueryCount + 1 })) ∧
    (c.currentState = RequestType.WARMUP_QUERY →
      acquireUserQuery c = (true, c.warmupCancelFunc,
        { c with currentState := .USER_QUERY, userQueryCount := 1,
                 warmupCancelFunc := none, warmupPfx := "" })) ∧
    ((acquireWarmup p cancel c).1 = true ↔
      c.currentState = RequestType.IDLE) ∧
    (c.currentState = RequestType.IDLE →
      acquireWarmup p cancel c = (true,
        { c with currentState := .WARMUP_QUERY, warmupPfx := p,
                 warmupCancelFunc := some cancel })) ∧
    (c.currentState ≠ RequestType.IDLE →
      acquireWarmup p cancel c = (false, c)) := by
  obtain ⟨st, wc, wp, n⟩ := c
  cases st <;> simp [acquireUserQuery, acquireWarmup]

theorem admission_transition_table_witness :
    acquireUserQuery cWarmW = (true, some (),
      { cWarmW with currentState := .USER_QUERY, userQueryCount := 1,
                    warmupCancelFunc := none, warmupPfx := "" }) ∧
    acquireWarmup "@x" () cUserW = (false, cUserW) :=
  ⟨(admission_transition_table Unit cWarmW "@x" ()).2.2.2.1 rfl,
   (admission_transition_table Unit cUserW "@x" ()).2.2.2.2.2.2 (by decide)⟩

/-- Claim C4: `should_save(new)` is true iff `last_prefix` is non-empty and
differs from `new`; `should_restore(new)` is true iff `new` is non-empty
and `last_prefix` differs from `new`. -/
theorem should_save_restore_spec (s : BackendState) (newPfx : String) :
    (shouldSave s newPfx = true ↔ s.lastPfx ≠ "" ∧ s.lastPfx ≠ newPfx) ∧
    (shouldRestore s newPfx = true ↔ newPfx ≠ "" ∧ s.lastPfx ≠ newPfx) :=
  ⟨by simp [shouldSave], by simp [shouldRestore]⟩

theorem piecesAux_ne_nil (fs : List Char → Option (List Char))
    (reason : List Char → List Char) (ts : List Tok) :
    piecesAux fs reason ts ≠ [] := by
  cases ts with
  | nil => simp [piecesAux]
  | cons t ts =>
    simp only [piecesAux]
    split
    · simp
    · split <;> simp

theorem piecesAux_length (fs : List Char → Option (List Char))
    (reason : List Char → List Char) (ts : List Tok) :
    (piecesAux fs reason ts).length = (ts.filter isMsgDir).length + 1 := by
  induction ts with
  | nil => simp [piecesAux]
  | cons t ts ih =>
    by_cases h : isMsgDir t = true
    · simp [piecesAux, h, List.filter_cons, ih]
    · simp only [piecesAux, h, if_false, List.filter_cons]
      rcases hp : piecesAux fs reason ts with _ | ⟨p, rest⟩
      · exact absurd hp (piecesAux_ne_nil fs reason ts)
      · rw [hp] at ih
        simp only [List.length_cons] at ih
        simp [h, ih]

theorem renderTok_msg (fs : List Char → Option (List Char))
    (reason : List Char → List Char) (M : List Char) (t : Tok)
    (h : isMsgDir t = true) : renderTok fs reason M t = M := by
  cases t with
  | lit c => simp [isMsgDir] at h
  | dir inner =>
    simp only [isMsgDir, beq_iff_eq] at h
    simp [renderTok, h]

theorem renderTok_fixed (fs : List Char → Option (List Char))
    (reason : List Char → List Char) (M : List Char) (t : Tok)
    (h : ¬ isMsgDir t = true) :
    renderTok fs reason M t = renderTok fs reason [] t := by
  cases t with
  | lit c => rfl
  | dir inner =>
    simp only [isMsgDir, beq_iff_eq] at h
    simp [renderTok, h]

theorem flatten_render_eq_interleave (fs : List Char → Option (List Char))
    (reason : List Char → List Char) (M : List Char) (ts : List Tok) :
    ((ts.map (renderTok fs reason M)).flatten)
      = interleave M (piecesAux fs reason ts) := by
  induction ts with
  | nil => simp [piecesAux, interleave]
  | cons t ts ih =>
    by_cases h : isMsgDir t = true
    · simp only [List.map_cons, List.flatten_cons,
        renderTok_msg fs reason M t h, piecesAux, h, if_true]
      rcases hp : piecesAux fs reason ts with _ | ⟨p, rest⟩
      · exact absurd hp (piecesAux_ne_nil fs reason ts)
      · rw [ih, hp]
        simp [interleave]
    · simp only [List.map_cons, List.flatten_cons,
        renderTok_fixed fs reason M t h, piecesAux, h, if_false]
      rcases hp : piecesAux fs reason ts with _ | ⟨p, rest⟩
      · exact absurd hp (piecesAux_ne_nil fs reason ts)
      · rw [ih, hp]
        rcases rest with _ | ⟨q, rest'⟩
        · simp [interleave]
        · simp [interleave, List.append_assoc]

/-- Claim C5, amended: the expansion inserts the user message `M` verbatim
exactly once per `message` directive found by the single left-to-right
scan of the original template (interiors are whitespace-trimmed before
comparison, and a directive's interior is the maximal brace-free run, so
this count can differ from the number of literal `<\{message\}>`
occurrences); everything else of the output — the `pieces` — depends only
on the template and the filesystem, so substituted content, including `M`
itself, is never rescanned for directives. -/
theorem expansion_interleave (fs : List Char → Option (List Char))
    (reason : List Char → List Char) (tmpl M : List Char) :
    processTemplateString fs reason tmpl M
        = interleave M (pieces fs reason tmpl) ∧
    (pieces fs reason tmpl).length = msgDirCount tmpl + 1 :=
  ⟨flatten_render_eq_interleave fs reason M (scanTemplate tmpl),
   piecesAux_length fs reason (scanTemplate tmpl)⟩

theorem alookup_aset_ne {α : Type} (xs : List (String × α)) (k k' : String)
    (v : α) (h : k' ≠ k) : alookup (aset xs k v) k' = alookup xs k' := by
  induction xs with
  | nil => rfl
  | cons x rest ih =>
    obtain ⟨kk, vv⟩ := x
    by_cases hk : kk = k
    · have h3 : ¬ k = k' := fun hh => h hh.symm
      simp [aset, alookup, hk, h3]
    · simp [aset, alookup, hk, ih]

theorem keys_aset {α : Type} (xs : List (String × α)) (k : String) (v : α) :
    (aset xs k v).map Prod.fst = xs.map Prod.fst := by
  induction xs with
  | nil => rfl
  | cons x rest ih =>
    obtain ⟨kk, vv⟩ := x
    by_cases hk : kk = k <;> simp [aset, hk, ih]

theorem get?_set_of_ne {α : Type} (xs : List α) (i j : Nat) (v : α)
    (h : j ≠ i) : (xs.set i v).get? j = xs.get? j := by
  induction xs generalizing i j with
  | nil => simp
  | cons x rest ih =>
    cases i with
    | zero =>
      cases j with
      | zero => exact absurd rfl h
      | succ j => simp [List.set]
    | succ i =>
      cases j with
      | zero => simp [List.set]
      | succ j => simpa [List.set] using ih i j (by omega)

/-- Claim C6: whenever the interceptor forwards a chat-completion body, the
forwarded JSON object has exactly the original field set with every field
equal, except that the `content` of the last user-role message may be
replaced by its template expansion. -/
theorem forwarded_body_frame (cfg : List String)
    (proc : String → String → Option String) (lastPfx : String)
    (fields : List (String × JVal)) (out : JVal) (pfx : String)
    (ds dr : Bool)
    (h : handleChat cfg proc lastPfx (.jobj fields) = .ok out pfx ds dr) :
    out = .jobj fields ∨
    ∃ msgs i m content p expanded,
      alookup fields "messages" = some (.jarr msgs) ∧
      lastUserMsg msgs = some (i, m) ∧
      alookup m "content" = some (.jstr content) ∧
      findPfx cfg content = some p ∧
      proc p (dropPfxSpace p content) = some expanded ∧
      p = pfx ∧
      out = .jobj (aset fields "messages" (.jarr (msgs.set i
        (.jobj (aset m "content" (.jstr expanded)))))) ∧
      (aset fields "messages" (.jarr (msgs.set i
        (.jobj (aset m "content" (.jstr expanded)))))).map Prod.fst
        = fields.map Prod.fst ∧
      (∀ k, k ≠ "messages" →
        alookup (aset fields "messages" (.jarr (msgs.set i
          (.jobj (aset m "content" (.jstr expanded)))))) k
          = alookup fields k) ∧
      (msgs.set i (.jobj (aset m "content" (.jstr expanded)))).length
        = msgs.length ∧
      (∀ j, j ≠ i →
        (msgs.set i (.jobj (aset m "content" (.jstr expanded)))).get? j
          = msgs.get? j) ∧
      (aset m "content" (.jstr expanded)).map Prod.fst = m.map Prod.fst ∧
      (∀ k, k ≠ "content" →
        alookup (aset m "content" (.jstr expanded)) k = alookup m k) := by
  replace h : handleChatObj cfg proc lastPfx fields = .ok out pfx ds dr := h
  unfold handleChatObj at h
  cases hm : alookup fields "messages" with
  | none => rw [hm] at h; simp at h
  | some mv =>
    rw [hm] at h
    cases mv with
    | null => simp at h
    | jbool b => simp at h
    | jnum n => simp at h
    | jstr s => simp at h
    | jobj o => simp at h
    | jarr msgs =>
      simp at h
      cases hl : lastUserMsg msgs with
      | none =>
        rw [hl] at h
        simp only [ChatResult.ok.injEq] at h
        exact Or.inl h.1.symm
      | some im =>
        obtain ⟨i, m⟩ := im
        rw [hl] at h
        simp at h
        cases hc : alookup m "content" with
        | none => rw [hc] at h; simp at h
        | some cv =>
          rw [hc] at h
          cases cv with
          | null => simp at h
          | jbool b => simp at h
          | jnum n => simp at h
          | jarr xs => simp at h
          | jobj o => simp at h
          | jstr content =>
            simp at h
            cases hf : findPfx cfg content with
            | none =>
              rw [hf] at h
              simp only [ChatResult.ok.injEq] at h
              exact Or.inl h.1.symm
            | some p =>
              rw [hf] at h
              simp at h
              cases hp : proc p (dropPfxSpace p content) with
              | none => rw [hp] at h; simp at h
              | some expanded =>
                rw [hp] at h
                simp only [ChatResult.ok.injEq] at h
                obtain ⟨hout, hpfx, _, _⟩ := h
                refine Or.inr ⟨msgs, i, m, content, p, expanded,
                  rfl, hl, hc, hf, hp, hpfx, hout.symm,
                  keys_aset fields "messages" _,
                  fun k hk => alookup_aset_ne fields "messages" k _ hk,
                  List.length_set msgs i _,
                  fun j hj => get?_set_of_ne msgs i j _ hj,
                  keys_aset m "content" _,
                  fun k hk => alookup_aset_ne m "content" k _ hk⟩

theorem forwarded_body_frame_witness :
    c6out = JVal.jobj c6fields ∨
    ∃ msgs i m content p expanded,
      alookup c6fields "messages" = some (.jarr msgs) ∧
      lastUserMsg msgs = some (i, m) ∧
      alookup m "content" = some (.jstr content) ∧
      findPfx ["@code"] content = some p ∧
      c6proc p (dropPfxSpace p content) = some expanded ∧
      p = "@code" ∧
      c6out = .jobj (aset c6fields "messages" (.jarr (msgs.set i
        (.jobj (aset m "content" (.jstr expanded)))))) ∧
      (aset c6fields "messages" (.jarr (msgs.set i
        (.jobj (aset m "content" (.jstr expanded)))))).map Prod.fst
        = c6fields.map Prod.fst ∧
      (∀ k, k ≠ "messages" →
        alookup (aset c6fields "messages" (.jarr (msgs.set i
          (.jobj (aset m "content" (.jstr expanded)))))) k
          = alookup c6fields k) ∧
      (msgs.set i (.jobj (aset m "content" (.jstr expanded)))).length
        = msgs.length ∧
      (∀ j, j ≠ i →
        (msgs.set i (.jobj (aset m "content" (.jstr expanded)))).get? j
          = msgs.get? j) ∧
      (aset m "content" (.jstr expanded)).map Prod.fst = m.map Prod.fst ∧
      (∀ k, k ≠ "content" →
        alookup (aset m "content" (.jstr expanded)) k = alookup m k) :=
  forwarded_body_frame ["@code"] c6proc "" c6fields c6out "@code"
    false true rfl

/-- Claim C10: a chat-completion body whose `messages` array contains no
user-role entry is not rejected: the handler forwards the object
unchanged, uses the empty prefix, and the cache reconciliation is the one
for the empty prefix (in particular it never restores, and it saves
exactly when a template was previously resident). -/
theorem no_user_message_passthrough (cfg : List String)
    (proc : String → String → Option String) (lastPfx : String)
    (fields : List (String × JVal)) (msgs : List JVal)
    (hm : alookup fields "messages" = some (.jarr msgs))
    (hl : lastUserMsg msgs = none) :
    handleChat cfg proc lastPfx (.jobj fields)
      = .ok (.jobj fields) ""
          (shouldSave ⟨lastPfx⟩ "") (shouldRestore ⟨lastPfx⟩ "") ∧
    shouldRestore ⟨lastPfx⟩ "" = false ∧
    shouldSave ⟨lastPfx⟩ "" = (lastPfx != "") := by
  refine ⟨?_, by simp [shouldRestore], by simp [shouldSave]⟩
  show handleChatObj cfg proc lastPfx fields = _
  simp [handleChatObj, hm, hl]

theorem no_user_message_passthrough_witness :
    handleChat [] (fun _ _ => none) "@code" (.jobj c10fields)
      = .ok (.jobj c10fields) "" true false ∧
    shouldRestore ⟨"@code"⟩ "" = false ∧
    shouldSave ⟨"@code"⟩ "" = ("@code" != "") :=
  no_user_message_passthrough [] (fun _ _ => none) "@code" c10fields
    [.jobj [("role", .jstr "assistant"), ("content", .jstr "x")]] rfl rfl

/-- Claim C5, counterexample: for the template `<\x7b message \x7d>` and
user message `hello`, the expansion contains `hello` once while the
directive `<\x7bmessage\x7d>` appears literally zero times in the
template (the code trims interior whitespace), so the stated occurrence
count is wrong. -/
theorem expansion_count_cex :
    ¬ (countOcc "hello".toList
        (processTemplateString c5fs c5reason c5T "hello".toList)
      = countOcc c5lit c5T) := by decide

/-- Claim C7: if a warmup attempt's completion request aborts because the
admission controller invoked the attempt's cancellation handle, the
attempt leaves the backend-state tracker unchanged, leaves every watcher
entry (in particular its needs-warmup flag and hash) unchanged, and
records no warmup error metric — and no execution metric either. -/
theorem warmup_cancel_preserves_state (H : Type) (cancel : H)
    (fs : List Char → Option (List Char))
    (reason : List Char → List Char) (pfx : String) (st : WarmupState H)
    (c : List Char)
    (hAcq : (acquireWarmup pfx cancel st.adm).1 = true)
    (hProc : processTemplateW st.templates fs reason pfx "" = some c) :
    (warmupOne fs reason .cancelled cancel pfx st).backend = st.backend ∧
    (warmupOne fs reason .cancelled cancel pfx st).templates
      = st.templates ∧
    (warmupOne fs reason .cancelled cancel pfx st).warmupErrors
      = st.warmupErrors ∧
    (warmupOne fs reason .cancelled cancel pfx st).warmupExecs
      = st.warmupExecs := by
  unfold warmupOne warmupTemplate
  rw [hProc]
  simp [hAcq]

theorem warmup_cancel_preserves_state_witness :
    (warmupOne c7fs c7reason .cancelled () "@a" c7st).backend
      = c7st.backend ∧
    (warmupOne c7fs c7reason .cancelled () "@a" c7st).templates
      = c7st.templates ∧
    (warmupOne c7fs c7reason .cancelled () "@a" c7st).warmupErrors
      = c7st.warmupErrors ∧
    (warmupOne c7fs c7reason .cancelled () "@a" c7st).warmupExecs
      = c7st.warmupExecs :=
  warmup_cancel_preserves_state Unit () c7fs c7reason "@a" c7st
    "Hi".toList rfl rfl

theorem checkForChanges_spec (fs : List Char → Option (List Char))
    (reason : List Char → List Char) (hash : List Char → List Char)
    (ts : List (String × TemplateState)) :
    checkForChanges fs reason hash ts
      = ((ts.filter (entryChanged fs reason hash)).map Prod.fst,
         ts.map (entryAfterCheck fs reason hash)) := by
  induction ts with
  | nil => rfl
  | cons e rest ih =>
    obtain ⟨p, s⟩ := e
    by_cases hn : s.needsWarmup = true
    · simp [checkForChanges, entryChanged, entryAfterCheck, hn, ih,
        List.filter_cons]
    · cases hf2 : processTemplateFile fs reason s.templatePath "" with
      | none =>
        simp [checkForChanges, entryChanged, entryAfterCheck, hn, hf2, ih,
          List.filter_cons]
      | some processed =>
        by_cases hh : hash processed = s.processedHash
        · simp [checkForChanges, entryChanged, entryAfterCheck, hn, hf2,
            hh, ih, List.filter_cons]
        · simp [checkForChanges, entryChanged, entryAfterCheck, hn, hf2,
            hh, ih, List.filter_cons]

/-- Claim C8, amended: `check_for_changes` reports an entry iff its
needs-warmup flag was already set, or its re-expansion with the empty
message succeeds and hashes differently from the stored hash (entries
whose template cannot be read are skipped and left unchanged).  An entry
already flagged is reported immediately without re-expansion and keeps
its stored hash; only a detected hash difference flags the entry and
stores the recomputed hash. -/
theorem check_for_changes_characterization
    (fs : List Char → Option (List Char))
    (reason : List Char → List Char) (hash : List Char → List Char)
    (ts : List (String × TemplateState)) :
    checkForChanges fs reason hash ts
      = ((ts.filter (entryChanged fs reason hash)).map Prod.fst,
         ts.map (entryAfterCheck fs reason hash)) :=
  checkForChanges_spec fs reason hash ts

/-- Claim C8, counterexample: an entry that is already flagged
(`needs_warmup = true`) with stored hash `h1`, whose file now re-expands
to `X` (hash `X` under the identity hash).  `check_for_changes` reports
the entry but leaves the stored hash at `h1` instead of updating it to
the recomputed value, contradicting the claim. -/
theorem check_for_changes_cex :
    ¬ (("@a" ∈ (checkForChanges c8fs c8reason c8hash c8ts).1) →
       alookup (checkForChanges c8fs c8reason c8hash c8ts).2 "@a"
         = some ⟨"a.txt",
             c8hash (processTemplateString c8fs c8reason "X".toList []),
             true⟩) := by
  decide

/-- Claim C9, amended: on a scheduler tick the changed prefixes are
attempted exactly in the order `CheckForChanges` returns them, which is
the watcher's map-traversal order restricted to the changed entries (an
order-preserving subsequence of the registered entries); no sorting is
applied. -/
theorem warmup_order_traversal (H : Type)
    (fs : List Char → Option (List Char))
    (reason : List Char → List Char) (hash : List Char → List Char)
    (outcomes : String → CompletionOutcome) (cancel : H)
    (st : WarmupState H) :
    (checkAndWarmup fs reason hash outcomes cancel st).1
      = (checkForChanges fs reason hash st.templates).1 ∧
    List.Sublist (checkAndWarmup fs reason hash outcomes cancel st).1
      (st.templates.map Prod.fst) := by
  refine ⟨rfl, ?_⟩
  have h1 : (checkAndWarmup fs reason hash outcomes cancel st).1
      = ((st.templates.filter (entryChanged fs reason hash)).map
          Prod.fst) := by
    show (checkForChanges fs reason hash st.templates).1 = _
    rw [checkForChanges_spec]
  rw [h1]
  exact List.Sublist.map Prod.fst (List.filter_sublist _)

/-- Claim C9, counterexample: with the watcher map traversing `@b` before
`@a` (both flagged), the tick attempts `["@b", "@a"]`, which is not in
ascending prefix-name order. -/
theorem warmup_order_cex :
    ¬ AscendingOrder
      (checkAndWarmup c9fs c9reason c9hash (fun _ => CompletionOutcome.ok)
        () c9st).1 := by
  intro hasc
  have he : (checkAndWarmup c9fs c9reason c9hash
      (fun _ => CompletionOutcome.ok) () c9st).1 = ["@b", "@a"] := rfl
  rw [AscendingOrder, he] at hasc
  cases hasc with
  | cons hrel _ =>
    exact absurd (hrel "@a" (by simp)) (by decide)

/-- Claim C3 (modelled from the spec, see `interceptorTrace`): on every
chat-completion request the very first event is `acquire_user` — so it
precedes every backend interaction in the trace — the trace ends with
`release_user` on every return path (scoped release), and when a warmup
is in progress the `acquire_user` call invokes exactly the stored
cancellation handle (the real admission-controller embedding). -/
theorem interceptor_admission_scoped (H : Type) (cfg : List String)
    (proc : String → String → Option String) (lastPfx : String)
    (adm : Controller H) (body : Option JVal) (forwardOk : Bool) :
    (interceptorTrace cfg proc lastPfx adm body forwardOk).head?
      = some (.acquireUser (acquireUserQuery adm).2.1) ∧
    (interceptorTrace cfg proc lastPfx adm body forwardOk).getLast?
      = some .releaseUser ∧
    (adm.currentState = RequestType.WARMUP_QUERY →
      (acquireUserQuery adm).2.1 = adm.warmupCancelFunc) := by
  refine ⟨rfl, ?_, ?_⟩
  · show ((PEvent.acquireUser (acquireUserQuery adm).2.1 :: _) ++
      [PEvent.releaseUser]).getLast? = some PEvent.releaseUser
    exact List.getLast?_concat _
  · intro hw
    simp [acquireUserQuery, hw]

theorem interceptor_admission_scoped_witness :
    (interceptorTrace [] (fun _ _ => none) "" cWarmW none true).getLast?
      = some PEvent.releaseUser ∧
    (acquireUserQuery cWarmW).2.1 = cWarmW.warmupCancelFunc :=
  ⟨(interceptor_admission_scoped Unit [] (fun _ _ => none) "" cWarmW
      none true).2.1,
   (interceptor_admission_scoped Unit [] (fun _ _ => none) "" cWarmW
      none true).2.2 rfl⟩

end Bioproxy
